import Mathlib

/-!
Verification of the EGL display registry of the Android emulator's GL
translation layer (`EglDisplay.h`) and of the snapshot byte-cursor
stream (`InplaceStream.h`), against the repository specification.

The repository sample contains only the headers; the method bodies of
`EglDisplay.cpp` and `InplaceStream.cpp` are not part of the sample, so
those operations are modelled from the specification (each such
definition says so in its doc comment).  The inline bodies that do
appear in the headers (`nConfigs`, `getManager`) are translated
directly.

Objects held by the tables (contexts, surfaces, images, name managers)
are represented by their identities as natural numbers; a
shared-ownership smart pointer to an object is represented by the
object's identity, so "returning a share of `o`" is returning `some o`.
Handles are natural numbers.
-/

/-- A `std::map<unsigned int, Ptr>` handle table, as an association list
with unique keys.  `std::map` cannot hold two entries with one key, so
erasure removes every pair carrying the key. -/
def mapLookup (m : List (Nat × Nat)) (k : Nat) : Option Nat :=
  (m.find? (fun p => p.1 == k)).map Prod.snd

/-- Membership test of a key in a handle table. -/
def mapContains (m : List (Nat × Nat)) (k : Nat) : Bool :=
  m.any (fun p => p.1 == k)

/-- Erase a key from a handle table. -/
def mapErase (m : List (Nat × Nat)) (k : Nat) : List (Nat × Nat) :=
  m.filter (fun p => p.1 != k)

/-- Insert (or overwrite) a key in a handle table. -/
def mapInsert (m : List (Nat × Nat)) (k v : Nat) : List (Nat × Nat) :=
  (k, v) :: mapErase m k

/-- A framebuffer configuration (`EglConfig`): opaque handle, numeric
`EGL_CONFIG_ID`, the attribute vector (color/depth/stencil bits,
renderable-type mask, surface-type mask, caveat). -/
structure EglConfig where
  handle : Nat
  configId : Nat
  redSize : Nat
  greenSize : Nat
  blueSize : Nat
  alphaSize : Nat
  depthSize : Nat
  stencilSize : Nat
  renderableType : Nat
  surfaceType : Nat
  caveat : Nat
deriving DecidableEq, Repr

/-- `MAX_GLES_VERSION`: the sentinel past the supported GL versions
(GLES 1.1 and GLES 2.0), bounding the `m_manager` array. -/
def MAX_GLES_VERSION : Nat := 3

/-- The `EglDisplay` state: the fields of the class in `EglDisplay.h`
(native handles, lifecycle flags, the config list, the three
handle→object tables, the per-version name managers, the next-image-id
counter, the lazily created global shared context). -/
structure EglDisplay where
  m_dpy : Nat
  m_idpy : Nat
  m_initialized : Bool
  m_configInitialized : Bool
  m_isDefault : Bool
  m_configs : List EglConfig
  m_contexts : List (Nat × Nat)
  m_surfaces : List (Nat × Nat)
  m_manager : List Nat
  m_eglImages : List (Nat × Nat)
  m_nextEglImageId : Nat
  m_globalSharedContext : Option Nat
deriving DecidableEq, Repr

/-- Modelled from the spec (constructor body absent from the sample):
`EglDisplay(dpy, idpy, isDefault)` starts uninitialized with empty
tables, creates one name manager per supported GL version indexed
`[0, MAX_GLES_VERSION)`, and starts the dedicated image-id counter at 1. -/
def mkEglDisplay (dpy idpy : Nat) (isDefault : Bool) : EglDisplay :=
  { m_dpy := dpy
    m_idpy := idpy
    m_initialized := false
    m_configInitialized := false
    m_isDefault := isDefault
    m_configs := []
    m_contexts := []
    m_surfaces := []
    m_manager := List.range MAX_GLES_VERSION
    m_eglImages := []
    m_nextEglImageId := 1
    m_globalSharedContext := none }

/-- Modelled from the spec (`EglDisplay.cpp` absent): `addContext(ctx)`
inserts the context into the context table under a handle derived from
the object's address-equivalent identity and returns that handle. -/
def addContext (d : EglDisplay) (ctx : Nat) : Nat × EglDisplay :=
  (ctx, { d with m_contexts := mapInsert d.m_contexts ctx ctx })

/-- Modelled from the spec (`EglDisplay.cpp` absent): `getContext(h)`
resolves the handle under the lock and returns a fresh ownership share
of the context, or not-found; the display state is untouched (`const`). -/
def getContext (d : EglDisplay) (ctx : Nat) : Option Nat × EglDisplay :=
  (mapLookup d.m_contexts ctx, d)

/-- Modelled from the spec (`EglDisplay.cpp` absent): `removeContext(h)`
drops the table's share; returns whether the entry was present. -/
def removeContext (d : EglDisplay) (ctx : Nat) : Bool × EglDisplay :=
  (mapContains d.m_contexts ctx,
   { d with m_contexts := mapErase d.m_contexts ctx })

/-- Modelled from the spec (`EglDisplay.cpp` absent): `addSurface(s)`,
as `addContext` but on the surface table. -/
def addSurface (d : EglDisplay) (s : Nat) : Nat × EglDisplay :=
  (s, { d with m_surfaces := mapInsert d.m_surfaces s s })

/-- Modelled from the spec (`EglDisplay.cpp` absent): `getSurface(h)`,
as `getContext` but on the surface table. -/
def getSurface (d : EglDisplay) (s : Nat) : Option Nat × EglDisplay :=
  (mapLookup d.m_surfaces s, d)

/-- Modelled from the spec (`EglDisplay.cpp` absent): `removeSurface(h)`,
as `removeContext` but on the surface table. -/
def removeSurface (d : EglDisplay) (s : Nat) : Bool × EglDisplay :=
  (mapContains d.m_surfaces s,
   { d with m_surfaces := mapErase d.m_surfaces s })

/-- Modelled from the spec (`EglDisplay.cpp` absent): `addImageKHR(img)`
emits the next value of the dedicated monotonically-increasing image-id
counter as the handle and increments the counter.  (The spec makes
exhaustion of the 32-bit id space a fatal stop, so no wraparound is ever
observed; the counter is therefore unbounded here.) -/
def addImageKHR (d : EglDisplay) (img : Nat) : Nat × EglDisplay :=
  (d.m_nextEglImageId,
   { d with
     m_eglImages := mapInsert d.m_eglImages d.m_nextEglImageId img
     m_nextEglImageId := d.m_nextEglImageId + 1 })

/-- Modelled from the spec (`EglDisplay.cpp` absent): `getImage(h)`
returns a share of the image, or not-found; the display is untouched. -/
def getImage (d : EglDisplay) (img : Nat) : Option Nat × EglDisplay :=
  (mapLookup d.m_eglImages img, d)

/-- Modelled from the spec (`EglDisplay.cpp` absent):
`destroyImageKHR(h)` drops the image table's share; returns whether the
entry was present.  The id counter is not rewound. -/
def destroyImageKHR (d : EglDisplay) (img : Nat) : Bool × EglDisplay :=
  (mapContains d.m_eglImages img,
   { d with m_eglImages := mapErase d.m_eglImages img })

-- Handle-table helper lemmas.

theorem mapLookup_mapInsert_self (m : List (Nat × Nat)) (k v : Nat) :
    mapLookup (mapInsert m k v) k = some v := by
  simp [mapLookup, mapInsert, List.find?]

theorem mapContains_mapInsert_self (m : List (Nat × Nat)) (k v : Nat) :
    mapContains (mapInsert m k v) k = true := by
  simp [mapContains, mapInsert, List.any]

theorem mapLookup_mapErase_self (m : List (Nat × Nat)) (k : Nat) :
    mapLookup (mapErase m k) k = none := by
  induction m with
  | nil => rfl
  | cons a t ih =>
      by_cases h : a.1 = k <;>
        simp_all [mapErase, mapLookup, List.filter_cons, List.find?]

theorem mapContains_mapErase_self (m : List (Nat × Nat)) (k : Nat) :
    mapContains (mapErase m k) k = false := by
  induction m with
  | nil => rfl
  | cons a t ih =>
      by_cases h : a.1 = k <;>
        simp_all [mapErase, mapContains, List.filter_cons]

/-- C1: for each object table (contexts, surfaces, images), if `add(o)`
returns handle `h` on display `d`, then `get(h)` on the resulting
display returns a share of the same object `o`. -/
theorem add_then_get_returns_share :
    ∀ (d : EglDisplay) (o : Nat),
      (getContext (addContext d o).2 (addContext d o).1).1 = some o ∧
      (getSurface (addSurface d o).2 (addSurface d o).1).1 = some o ∧
      (getImage (addImageKHR d o).2 (addImageKHR d o).1).1 = some o := by
  intro d o
  refine ⟨?_, ?_, ?_⟩ <;>
    simp [getContext, addContext, getSurface, addSurface, getImage,
      addImageKHR, mapLookup_mapInsert_self]

/-- C2: for each object table, after `add(o) → h` a first `remove(h)`
returns true; on the resulting display `get(h)` returns not-found, and a
second `remove(h)` returns false. -/
theorem remove_then_get_not_found :
    ∀ (d : EglDisplay) (o : Nat),
      ((removeContext (addContext d o).2 (addContext d o).1).1 = true ∧
       (getContext (removeContext (addContext d o).2 (addContext d o).1).2
          (addContext d o).1).1 = none ∧
       (removeContext (removeContext (addContext d o).2 (addContext d o).1).2
          (addContext d o).1).1 = false) ∧
      ((removeSurface (addSurface d o).2 (addSurface d o).1).1 = true ∧
       (getSurface (removeSurface (addSurface d o).2 (addSurface d o).1).2
          (addSurface d o).1).1 = none ∧
       (removeSurface (removeSurface (addSurface d o).2 (addSurface d o).1).2
          (addSurface d o).1).1 = false) ∧
      ((destroyImageKHR (addImageKHR d o).2 (addImageKHR d o).1).1 = true ∧
       (getImage (destroyImageKHR (addImageKHR d o).2 (addImageKHR d o).1).2
          (addImageKHR d o).1).1 = none ∧
       (destroyImageKHR (destroyImageKHR (addImageKHR d o).2
          (addImageKHR d o).1).2 (addImageKHR d o).1).1 = false) := by
  intro d o
  refine ⟨⟨?_, ?_, ?_⟩, ⟨?_, ?_, ?_⟩, ⟨?_, ?_, ?_⟩⟩ <;>
    simp [removeContext, addContext, getContext, removeSurface, addSurface,
      getSurface, destroyImageKHR, addImageKHR, getImage,
      mapContains_mapInsert_self, mapLookup_mapErase_self,
      mapContains_mapErase_self]

/-- An operation on the image table, for stating handle monotonicity
along a run of a Display. -/
inductive ImgOp where
  | addImage (img : Nat)
  | removeImage (h : Nat)
deriving DecidableEq, Repr

/-- Run a sequence of image-table operations on a display. -/
def runImgOps (d : EglDisplay) : List ImgOp → EglDisplay
  | [] => d
  | ImgOp.addImage img :: rest => runImgOps (addImageKHR d img).2 rest
  | ImgOp.removeImage h :: rest => runImgOps (destroyImageKHR d h).2 rest

/-- The image handles issued by `addImageKHR`, in order, along a run. -/
def issuedImageIds (d : EglDisplay) : List ImgOp → List Nat
  | [] => []
  | ImgOp.addImage img :: rest =>
      (addImageKHR d img).1 :: issuedImageIds (addImageKHR d img).2 rest
  | ImgOp.removeImage h :: rest => issuedImageIds (destroyImageKHR d h).2 rest

theorem le_issuedImageIds (d : EglDisplay) (ops : List ImgOp) :
    ∀ x ∈ issuedImageIds d ops, d.m_nextEglImageId ≤ x := by
  induction ops generalizing d with
  | nil => intro x hx; simp [issuedImageIds] at hx
  | cons op rest ih =>
      intro x hx
      cases op with
      | addImage img =>
          simp only [issuedImageIds, List.mem_cons] at hx
          rcases hx with h | h
          · simp [addImageKHR, h]
          · have := ih (addImageKHR d img).2 x h
            simp only [addImageKHR] at this
            omega
      | removeImage h =>
          simp only [issuedImageIds] at hx
          have := ih (destroyImageKHR d h).2 x hx
          simpa [destroyImageKHR] using this

/-- C3: the image-id counter starts at 1 at construction; each
`addImageKHR` returns the current counter and bumps it by one; along any
run of image operations the issued handles strictly increase, so a
handle is never re-issued, even after its image was removed; in
particular the scenario add, add, remove 1, add issues 1, 2, 3. -/
theorem image_ids_monotonic :
    (∀ (dpy idpy : Nat) (b : Bool),
        (mkEglDisplay dpy idpy b).m_nextEglImageId = 1) ∧
    (∀ (d : EglDisplay) (img : Nat),
        (addImageKHR d img).1 = d.m_nextEglImageId ∧
        (addImageKHR d img).2.m_nextEglImageId = d.m_nextEglImageId + 1) ∧
    (∀ (d : EglDisplay) (ops : List ImgOp),
        (issuedImageIds d ops).Pairwise (· < ·)) ∧
    issuedImageIds (mkEglDisplay 0 0 true)
      [ImgOp.addImage 10, ImgOp.addImage 20, ImgOp.removeImage 1,
       ImgOp.addImage 30] = [1, 2, 3] := by
  refine ⟨fun dpy idpy b => rfl, fun d img => ⟨rfl, rfl⟩, ?_, by decide⟩
  intro d ops
  induction ops generalizing d with
  | nil => simp [issuedImageIds]
  | cons op rest ih =>
      cases op with
      | addImage img =>
          simp only [issuedImageIds]
          refine List.Pairwise.cons ?_ (ih (addImageKHR d img).2)
          intro x hx
          have := le_issuedImageIds (addImageKHR d img).2 rest x hx
          simp only [addImageKHR] at this ⊢
          omega
      | removeImage h =>
          simpa [issuedImageIds] using ih (destroyImageKHR d h).2

/-- Return the number of known configurations (`nConfigs`, inline in the
header: `return m_configs.size()`; a `const` method). -/
def nConfigs (d : EglDisplay) : Nat × EglDisplay :=
  (d.m_configs.length, d)

/-- Modelled from the spec (`EglDisplay.cpp` absent): `terminate()` from
`Initialized` empties the context, surface and image tables (dropping
the table's share of each) and clears the initialized flag, leaving the
config table intact; from `Terminated` or `Uninitialized` it is a
no-op. -/
def terminate (d : EglDisplay) : EglDisplay :=
  if d.m_initialized then
    { d with
      m_contexts := []
      m_surfaces := []
      m_eglImages := []
      m_initialized := false }
  else d

/-- C4: `terminate()` on an initialized display empties the context,
surface and image tables while leaving the config table (hence
`configCount`) exactly as it was; on a terminated or uninitialized
display it changes nothing; and it is idempotent. -/
theorem terminate_clears_tables_keeps_configs :
    (∀ d : EglDisplay, d.m_initialized = true →
        (terminate d).m_contexts = [] ∧
        (terminate d).m_surfaces = [] ∧
        (terminate d).m_eglImages = [] ∧
        (terminate d).m_configs = d.m_configs ∧
        (nConfigs (terminate d)).1 = (nConfigs d).1) ∧
    (∀ d : EglDisplay, d.m_initialized = false → terminate d = d) ∧
    (∀ d : EglDisplay, terminate (terminate d) = terminate d) := by
  refine ⟨?_, ?_, ?_⟩
  · intro d h; simp [terminate, nConfigs, h]
  · intro d h; simp [terminate, h]
  · intro d; by_cases h : d.m_initialized <;> simp [terminate, h]

/-- C4 witness: evaluating `terminate` on a concrete initialized display
with a nonempty context table, and on a concrete uninitialized one. -/
theorem terminate_clears_tables_keeps_configs_witness :
    (terminate
        { (addContext (mkEglDisplay 0 0 true) 7).2 with
          m_initialized := true }).m_contexts = [] ∧
    terminate (mkEglDisplay 0 0 true) = mkEglDisplay 0 0 true := by
  constructor
  · exact (terminate_clears_tables_keeps_configs.1
      { (addContext (mkEglDisplay 0 0 true) 7).2 with m_initialized := true }
      (by decide)).1
  · exact terminate_clears_tables_keeps_configs.2.1
      (mkEglDisplay 0 0 true) (by decide)

/-- The color-buffer size of a config (sum of the RGBA channel bits). -/
def bufferSize (c : EglConfig) : Nat :=
  c.redSize + c.greenSize + c.blueSize + c.alphaSize

/-- Modelled from the spec (`EglDisplay.cpp` absent): a config is chosen
by a template when its attributes meet-or-exceed the template's
constrained attributes and its renderable-type and surface-type masks
contain the template's masks. -/
def configChosen (dummy c : EglConfig) : Bool :=
  dummy.redSize ≤ c.redSize && dummy.greenSize ≤ c.greenSize &&
  dummy.blueSize ≤ c.blueSize && dummy.alphaSize ≤ c.alphaSize &&
  dummy.depthSize ≤ c.depthSize && dummy.stencilSize ≤ c.stencilSize &&
  (dummy.renderableType &&& c.renderableType == dummy.renderableType) &&
  (dummy.surfaceType &&& c.surfaceType == dummy.surfaceType)

/-- The EGL selection order on matching configs: renderable-type
priority, then caveat, then color-buffer size, then config-id. -/
def configCmpLe (a b : EglConfig) : Bool :=
  a.renderableType < b.renderableType ||
  (a.renderableType == b.renderableType &&
    (a.caveat < b.caveat ||
      (a.caveat == b.caveat &&
        (bufferSize a < bufferSize b ||
          (bufferSize a == bufferSize b && a.configId ≤ b.configId)))))

/-- Insert a config into a list kept in selection order. -/
def insertSorted (c : EglConfig) : List EglConfig → List EglConfig
  | [] => [c]
  | x :: xs => if configCmpLe c x then c :: x :: xs else x :: insertSorted c xs

/-- Sort configs by the EGL selection order (insertion sort). -/
def sortConfigs : List EglConfig → List EglConfig
  | [] => []
  | x :: xs => insertSorted x (sortConfigs xs)

/-- `INT_MAX` of the 32-bit `int` capacity argument. -/
def INT_MAX : Nat := 2 ^ 31 - 1

/-- Modelled from the spec (`EglDisplay.cpp` absent):
`chooseConfigs(dummy, configs, config_size)` filters the display's
configs against the template and orders them by the EGL selection rules;
with a null output buffer (`useBuffer = false`) it returns the number of
all matching configs and writes nothing; otherwise it writes up to
`config_size` matching handles and returns the number written. -/
def chooseConfigs (d : EglDisplay) (dummy : EglConfig) (useBuffer : Bool)
    (config_size : Nat) : Nat × List EglConfig :=
  let matching := sortConfigs (d.m_configs.filter (fun c => configChosen dummy c))
  if useBuffer then (min config_size matching.length, matching.take config_size)
  else (matching.length, [])

theorem length_insertSorted (c : EglConfig) (l : List EglConfig) :
    (insertSorted c l).length = l.length + 1 := by
  induction l with
  | nil => rfl
  | cons x xs ih =>
      by_cases h : configCmpLe c x <;> simp [insertSorted, h, ih]

theorem length_sortConfigs (l : List EglConfig) :
    (sortConfigs l).length = l.length := by
  induction l with
  | nil => rfl
  | cons x xs ih => simp [sortConfigs, length_insertSorted, ih]

/-- C5: for every template, `chooseConfigs` with a null output buffer
returns the same count that a call with an `INT_MAX`-capacity buffer
returns after writing, and the null-buffer call writes nothing. -/
theorem chooseConfigs_null_counts :
    ∀ (d : EglDisplay) (dummy : EglConfig),
      d.m_configs.length ≤ INT_MAX →
      (chooseConfigs d dummy false 0).1 = (chooseConfigs d dummy true INT_MAX).1 ∧
      (chooseConfigs d dummy false 0).2 = [] := by
  intro d dummy hlen
  have hfilter : (d.m_configs.filter (fun c => configChosen dummy c)).length ≤
      d.m_configs.length := List.length_filter_le _ _
  have hm : (sortConfigs
      (d.m_configs.filter (fun c => configChosen dummy c))).length ≤ INT_MAX := by
    rw [length_sortConfigs]; omega
  refine ⟨?_, rfl⟩
  simp [chooseConfigs, Nat.min_eq_right hm]

/-- C5 witness: a concrete display with two configs, one matching. -/
theorem chooseConfigs_null_counts_witness :
    (mkEglDisplay 0 0 true).m_configs.length ≤ INT_MAX ∧
    (chooseConfigs (mkEglDisplay 0 0 true)
        ⟨0, 0, 8, 8, 8, 8, 0, 0, 4, 4, 0⟩ false 0).1 =
      (chooseConfigs (mkEglDisplay 0 0 true)
        ⟨0, 0, 8, 8, 8, 8, 0, 0, 4, 4, 0⟩ true INT_MAX).1 :=
  ⟨by decide,
   (chooseConfigs_null_counts (mkEglDisplay 0 0 true)
     ⟨0, 0, 8, 8, 8, 8, 0, 0, 4, 4, 0⟩ (by decide)).1⟩

/-- `getConfig(EGLConfig conf)`: resolve a config by its opaque handle,
or not-found; a `const` lookup.  Modelled from the spec
(`EglDisplay.cpp` absent). -/
def getConfigByHandle (d : EglDisplay) (conf : Nat) : Option EglConfig × EglDisplay :=
  (d.m_configs.find? (fun c => c.handle == conf), d)

/-- `getConfig(EGLint id)`: resolve a config by its `EGL_CONFIG_ID`, or
not-found; a `const` lookup.  Modelled from the spec (`EglDisplay.cpp`
absent). -/
def getConfigById (d : EglDisplay) (id : Nat) : Option EglConfig × EglDisplay :=
  (d.m_configs.find? (fun c => c.configId == id), d)

theorem find?_handle_of_mem (l : List EglConfig) (c : EglConfig)
    (hnd : (l.map EglConfig.handle).Nodup) (hmem : c ∈ l) :
    l.find? (fun x => x.handle == c.handle) = some c := by
  induction l with
  | nil => cases hmem
  | cons a t ih =>
      simp only [List.map_cons, List.nodup_cons] at hnd
      rcases List.mem_cons.mp hmem with rfl | hmem
      · rw [List.find?_cons_of_pos _ (by simp)]
      · have hne : a.handle ≠ c.handle := by
          intro h
          exact hnd.1 (h ▸ List.mem_map_of_mem EglConfig.handle hmem)
        rw [List.find?_cons_of_neg _ (by simpa using hne)]
        exact ih hnd.2 hmem

/-- C6: on a display whose config handles are pairwise distinct, looking
a config up by id and then looking up by the handle of the result yields
the same config: `configByHandle(configById(id).handle) = configById(id)`. -/
theorem configByHandle_configById :
    ∀ (d : EglDisplay) (id : Nat) (c : EglConfig),
      (d.m_configs.map EglConfig.handle).Nodup →
      (getConfigById d id).1 = some c →
      (getConfigByHandle d c.handle).1 = some c := by
  intro d id c hnd hfound
  simp only [getConfigById] at hfound
  simp only [getConfigByHandle]
  exact find?_handle_of_mem d.m_configs c hnd (List.mem_of_find?_eq_some hfound)

/-- C6 witness: a concrete display with two configs of distinct handles;
the round trip at id 2 returns the second config. -/
theorem configByHandle_configById_witness :
    (getConfigByHandle
        { mkEglDisplay 0 0 true with
          m_configs := [⟨100, 1, 8, 8, 8, 8, 24, 8, 4, 5, 0⟩,
                        ⟨101, 2, 5, 6, 5, 0, 16, 0, 1, 5, 0⟩] }
        (⟨101, 2, 5, 6, 5, 0, 16, 0, 1, 5, 0⟩ : EglConfig).handle).1 =
      some ⟨101, 2, 5, 6, 5, 0, 16, 0, 1, 5, 0⟩ :=
  configByHandle_configById
    { mkEglDisplay 0 0 true with
      m_configs := [⟨100, 1, 8, 8, 8, 8, 24, 8, 4, 5, 0⟩,
                    ⟨101, 2, 5, 6, 5, 0, 16, 0, 1, 5, 0⟩] }
    2 ⟨101, 2, 5, 6, 5, 0, 16, 0, 1, 5, 0⟩ (by decide) (by decide)

/-- `isInitialize()`: reports the initialized flag (a lookup).  Modelled
from the spec (`EglDisplay.cpp` absent). -/
def isInitialize (d : EglDisplay) : Bool × EglDisplay :=
  (d.m_initialized, d)

/-- Modelled from the spec (`EglDisplay.cpp` absent):
`initialize(renderableType)` loads the config table from the driver
(only on first entry: the config-initialized flag suppresses reload) and
sets the initialized flag.  The driver is represented by the optional
config list it enumerates for the requested renderable type; `none`
means the driver refused, in which case the display is left unchanged.
The header declares `void` return for this method, so the value
handed back to the caller is the unit value in every case. -/
def initDisplay (driverConfigs : Option (List EglConfig)) (renderableType : Nat)
    (d : EglDisplay) : Unit × EglDisplay :=
  match driverConfigs with
  | none => ((), d)
  | some cfgs =>
      ((), { d with
             m_initialized := true
             m_configInitialized := true
             m_configs := if d.m_configInitialized then d.m_configs else cfgs })

/-- C7 counterexample: `initialize` is declared `void` in the header, so
the value returned to the caller when the driver refuses to enumerate
configs is identical to the one returned when the driver succeeds — no
success/fail result reaches the caller. -/
theorem initDisplay_returns_no_result :
    (initDisplay none 4 (mkEglDisplay 0 0 true)).1 =
      (initDisplay (some [⟨100, 1, 8, 8, 8, 8, 24, 8, 4, 5, 0⟩]) 4
        (mkEglDisplay 0 0 true)).1 := rfl

/-- C7 (amended): `initialize(renderableType)` returns no value to its
caller; it fails exactly when the driver refuses to enumerate configs,
and then the display is left entirely unchanged (in particular an
uninitialized display stays uninitialized); when the driver enumerates,
the display becomes initialized, observable through `isInitialize`. -/
theorem initDisplay_refused_leaves_display_unchanged :
    ∀ (d : EglDisplay) (rt : Nat),
      (initDisplay none rt d).2 = d ∧
      (∀ cfgs : List EglConfig,
        (isInitialize (initDisplay (some cfgs) rt d).2).1 = true) := by
  intro d rt
  exact ⟨rfl, fun cfgs => rfl⟩

/-- `getManager(ver)`, inline in the header:
`return m_manager[ver];` — an unchecked index into the fixed-size
per-version manager array.  A `none` result here corresponds to an
access past the end of the array, which in the source is an
out-of-bounds read (undefined behavior), not a returned sentinel. -/
def getManager (d : EglDisplay) (ver : Nat) : Option Nat × EglDisplay :=
  (d.m_manager[ver]?, d)

/-- C8: on a freshly constructed display, `getManager` returns the
manager created at construction for each in-range version, while at the
failing input `ver = MAX_GLES_VERSION` the manager array has no element
to return — the source reads past the array instead of returning an
invalid-version sentinel. -/
theorem getManager_unchecked_at_max_version :
    (getManager (mkEglDisplay 0 0 true) 0).1 = some 0 ∧
    (getManager (mkEglDisplay 0 0 true) 1).1 = some 1 ∧
    (getManager (mkEglDisplay 0 0 true) 2).1 = some 2 ∧
    (getManager (mkEglDisplay 0 0 true) MAX_GLES_VERSION).1 = none := by
  decide

/-- The `InplaceStream` state from `InplaceStream.h`: a non-owning
cursor pair over the caller's byte buffer (`mData`, whose length is
`mDataLen`), with a read position and a write position. -/
structure InplaceStream where
  mData : List Nat
  mDataLen : Nat
  mReadPos : Nat
  mWritePos : Nat
deriving DecidableEq, Repr

/-- The constructor `InplaceStream(buf, buflen)`, inline in the header:
both positions start at zero. -/
def mkInplaceStream (buf : List Nat) : InplaceStream :=
  { mData := buf, mDataLen := buf.length, mReadPos := 0, mWritePos := 0 }

/-- Modelled from the spec (`InplaceStream.cpp` absent): `read(buffer,
size)` copies out the bytes from the read position, clamped to the
buffer length supplied at construction, advances the read position by
the number copied and returns that (possibly short) count. -/
def InplaceStream.read (s : InplaceStream) (size : Nat) :
    List Nat × InplaceStream :=
  let n := min size (s.mDataLen - s.mReadPos)
  ((s.mData.drop s.mReadPos).take n, { s with mReadPos := s.mReadPos + n })

/-- Modelled from the spec (`InplaceStream.cpp` absent): `write(buffer,
size)` copies bytes into the stream at the write position, clamped to
the buffer length supplied at construction, advances the write position
by the number copied and returns that (possibly short) count. -/
def InplaceStream.write (s : InplaceStream) (buffer : List Nat) (size : Nat) :
    Nat × InplaceStream :=
  let n := min size (s.mDataLen - s.mWritePos)
  (n,
   { s with
     mData := s.mData.take s.mWritePos ++ buffer.take n ++
       s.mData.drop (s.mWritePos + n)
     mWritePos := s.mWritePos + n })

/-- C9: on a well-formed stream (positions within the buffer, `mDataLen`
the buffer's length), `read` returns exactly `min size (len - readPos)`
bytes — a short count when the request crosses the end — and those bytes
are a contiguous segment of the buffer; `write` returns the analogous
short count, never changes the buffer's length, and leaves every byte
before the write position and from the end of the written segment on
untouched; both positions stay within bounds. -/
theorem inplaceStream_reads_writes_in_bounds :
    ∀ (s : InplaceStream) (size : Nat) (buffer : List Nat),
      s.mDataLen = s.mData.length →
      s.mReadPos ≤ s.mDataLen →
      s.mWritePos ≤ s.mDataLen →
      size ≤ buffer.length →
      ((s.read size).1.length = min size (s.mDataLen - s.mReadPos) ∧
       (∃ pre post, pre ++ (s.read size).1 ++ post = s.mData) ∧
       (s.read size).2.mReadPos ≤ (s.read size).2.mDataLen) ∧
      ((s.write buffer size).1 = min size (s.mDataLen - s.mWritePos) ∧
       (s.write buffer size).2.mData.length = s.mData.length ∧
       (s.write buffer size).2.mData.take s.mWritePos =
         s.mData.take s.mWritePos ∧
       (s.write buffer size).2.mData.drop
           (s.mWritePos + (s.write buffer size).1) =
         s.mData.drop (s.mWritePos + (s.write buffer size).1) ∧
       (s.write buffer size).2.mWritePos ≤ (s.write buffer size).2.mDataLen) := by
  intro s size buffer hlen hrp hwp hbuf
  have hn_r : min size (s.mDataLen - s.mReadPos) ≤ s.mDataLen - s.mReadPos :=
    Nat.min_le_right _ _
  have hn_w : min size (s.mDataLen - s.mWritePos) ≤ s.mDataLen - s.mWritePos :=
    Nat.min_le_right _ _
  have hn_ws : min size (s.mDataLen - s.mWritePos) ≤ size :=
    Nat.min_le_left _ _
  refine ⟨⟨?_, ?_, ?_⟩, rfl, ?_, ?_, ?_, ?_⟩
  · simp only [InplaceStream.read, List.length_take, List.length_drop, ← hlen]
    omega
  · refine ⟨s.mData.take s.mReadPos,
      s.mData.drop (s.mReadPos + min size (s.mDataLen - s.mReadPos)), ?_⟩
    simp only [InplaceStream.read, List.append_assoc]
    have h1 : (s.mData.drop s.mReadPos).drop (min size (s.mDataLen - s.mReadPos)) =
        s.mData.drop (s.mReadPos + min size (s.mDataLen - s.mReadPos)) := by
      rw [List.drop_drop, Nat.add_comm]
    rw [← h1, List.take_append_drop, List.take_append_drop]
  · simp only [InplaceStream.read]
    omega
  · simp only [InplaceStream.write, List.length_append, List.length_take,
      List.length_drop, ← hlen]
    omega
  · simp only [InplaceStream.write, List.append_assoc]
    rw [List.take_left' (by rw [List.length_take, ← hlen]; omega)]
  · simp only [InplaceStream.write, ← List.append_assoc]
    rw [List.drop_left' (by
      rw [List.length_append, List.length_take, List.length_take, ← hlen]
      omega)]
  · simp only [InplaceStream.write]
    omega

/-- C9 witness: a concrete 3-byte stream with read position 2 and write
position 1; a request of 5 bytes is short-counted to 1 and 2 bytes. -/
theorem inplaceStream_reads_writes_in_bounds_witness :
    ((⟨[1, 2, 3], 3, 2, 1⟩ : InplaceStream).read 5).1.length = min 5 (3 - 2) ∧
    ((⟨[1, 2, 3], 3, 2, 1⟩ : InplaceStream).write [9, 9, 9, 9, 9] 5).1 =
      min 5 (3 - 1) :=
  ⟨(inplaceStream_reads_writes_in_bounds ⟨[1, 2, 3], 3, 2, 1⟩ 5 [9, 9, 9, 9, 9]
      rfl (by decide) (by decide) (by decide)).1.1,
   (inplaceStream_reads_writes_in_bounds ⟨[1, 2, 3], 3, 2, 1⟩ 5 [9, 9, 9, 9, 9]
      rfl (by decide) (by decide) (by decide)).2.1⟩

/-- C10: every lookup operation of the display — `getContext`,
`getSurface`, `getImage`, config lookup by handle and by id, and
`nConfigs` — leaves the whole display state (the three object tables,
the config list, the flags, the image-id counter) unchanged, for every
argument including unknown handles. -/
theorem lookups_leave_display_unchanged :
    ∀ (d : EglDisplay) (h : Nat),
      (getContext d h).2 = d ∧
      (getSurface d h).2 = d ∧
      (getImage d h).2 = d ∧
      (getConfigByHandle d h).2 = d ∧
      (getConfigById d h).2 = d ∧
      (nConfigs d).2 = d := by
  intro d h
  exact ⟨rfl, rfl, rfl, rfl, rfl, rfl⟩
